import Mathlib

/-!
Shallow embedding of `src/SCT_DS_1.py`, a linear analysis script:
load all CSV entries of a ZIP archive into a name-keyed mapping of tables,
select one table, and visualize one column as a histogram (continuous path)
and/or a bar chart of bucketed values (binning path).

Cell values are rationals (the data sets in scope hold integer-formatted
numbers); missing cells are explicit.  Chart rendering and console printing
are modelled as an emitted event list; the summary statistics printed by the
continuous renderer are carried inside the events.  The standard-deviation
line printed by the source involves a square root and is not carried in the
summary record (no claim constrains it).
-/

namespace SCT

/-! String utilities (lower-casing, suffix test, splitting, substring test,
integer parsing), implemented by structural recursion over the character
list so that every concrete run of the pipeline evaluates inside the
kernel. -/

/-- `str.lower()`. -/
def toLowerStr (s : String) : String :=
  String.mk (s.data.map Char.toLower)

/-- `str.endswith(suf)`. -/
def strEndsWith (s suf : String) : Bool :=
  List.isSuffixOf suf.data s.data

/-- Split a character list at a separator character; a trailing separator
yields a final empty group, no separator yields one group. -/
def splitCharAux (c : Char) : List Char → List (List Char)
  | [] => [[]]
  | x :: xs =>
    if x = c then [] :: splitCharAux c xs
    else
      match splitCharAux c xs with
      | g :: gs => (x :: g) :: gs
      | [] => [[x]]

/-- `str.split(c)` for a one-character separator (the only separators the
script needs: newline, comma, slash). -/
def splitOnChar (s : String) (c : Char) : List String :=
  (splitCharAux c s.data).map String.mk

/-- The Python substring test `pat in s`, on character lists. -/
def subAux (pat : List Char) : List Char → Bool
  | [] => pat.isEmpty
  | x :: t => List.isPrefixOf pat (x :: t) || subAux pat t

/-- The Python substring test `pat in s`. -/
def strContains (s pat : String) : Bool :=
  subAux pat.data s.data

/-- Accumulate decimal digits; any non-digit character fails. -/
def parseNatAux : List Char → ℕ → Option ℕ
  | [], acc => some acc
  | c :: cs, acc =>
    if c.isDigit then parseNatAux cs (acc * 10 + (c.toNat - 48)) else none

/-- Integer parse of a cell, as pandas type inference reads the
integer-formatted cells of this data family. -/
def parseIntStr (s : String) : Option ℤ :=
  match s.data with
  | [] => none
  | '-' :: cs =>
    if cs = [] then none
    else (parseNatAux cs 0).map (fun n => -(n : ℤ))
  | cs => (parseNatAux cs 0).map (fun n => (n : ℤ))

/-- A parsed CSV cell: a number, a non-numeric string, or missing (NaN). -/
inductive Value where
  | num (q : ℚ)
  | str (s : String)
  | missing
deriving DecidableEq, Repr

def Value.isMissing : Value → Bool
  | .missing => true
  | _ => false

def Value.isStr : Value → Bool
  | .str _ => true
  | _ => false

/-- A parsed CSV table: header names plus raw data rows (pandas DataFrame). -/
structure Table where
  header : List String
  rows : List (List String)
deriving DecidableEq, Repr

/-- Cell parsing as `pd.read_csv` does for this data family: empty cell is
missing (NaN); an integer-formatted cell is numeric; anything else stays a
string. -/
def parseCell (s : String) : Value :=
  if s = "" then Value.missing
  else
    match parseIntStr s with
    | some n => Value.num (n : ℚ)
    | none => Value.str s

/-- The value series of one named column (`df[col]`); a row shorter than the
header yields a missing cell there.  An absent column gives `[]` (the script
always guards column presence before extraction). -/
def colVals (df : Table) (c : String) : List Value :=
  match df.header.findIdx? (fun s => s = c) with
  | some i => df.rows.map (fun r => parseCell (r.getD i ""))
  | none => []

/-- `pd.api.types.is_numeric_dtype`: the column dtype is numeric exactly when
no cell parsed as a non-numeric string. -/
def isNumericCol (vs : List Value) : Bool :=
  vs.all (fun v => !v.isStr)

/-- `series.dropna()` on a numeric series: the remaining numbers. -/
def dropnaNum (vs : List Value) : List ℚ :=
  vs.filterMap (fun v =>
    match v with
    | .num q => some q
    | _ => none)

/-- The `utf-8-sig` codec: a leading byte-order mark is stripped. -/
def stripBOM (s : String) : String :=
  match s.data with
  | c :: rest => if c = '\uFEFF' then String.mk rest else s
  | [] => s

/-- `os.path.basename` on archive entry names (ZIP names use `/`). -/
def basename (s : String) : String :=
  (splitOnChar s '/').getLastD s

/-- The Python test `"Metadata" in name` (case-sensitive substring). -/
def isMeta (s : String) : Bool :=
  strContains s "Metadata"

/-- Split decoded CSV text into rows of fields (the data family in scope has
no quoted fields); blank lines are skipped as `pd.read_csv` does by default. -/
def csvRows (content : String) : List (List String) :=
  ((splitOnChar (stripBOM content) '\n').filter (fun l => l ≠ "")).map
    (fun l => splitOnChar l ',')

/-- Parse one archive entry (`pd.read_csv` call in `load_all_csv_from_zip`):
a name containing `Metadata` is parsed as-is with the first row as header;
otherwise `skiprows=4` drops 4 leading rows and the next row is the header. -/
def parseEntry (name : String) (content : String) : Table :=
  let raw := csvRows content
  let rows := if isMeta name then raw else raw.drop 4
  ⟨rows.headD [], rows.tail⟩

/-- Python `dict` assignment `d[k] = v`: overwrite in place if the key is
present (keeping its position), else append. -/
def dinsert (m : List (String × Table)) (k : String) (v : Table) :
    List (String × Table) :=
  if m.any (fun p => p.1 = k) then
    m.map (fun p => if p.1 = k then (k, v) else p)
  else m ++ [(k, v)]

/-- Python `dict` lookup restricted to this mapping type. -/
def dlookup (m : List (String × Table)) (k : String) : Option Table :=
  match m with
  | [] => none
  | p :: rest => if p.1 = k then some p.2 else dlookup rest k

/-- One iteration of the loader loop: entries whose lowercased name ends in
`.csv` are parsed and stored under their base name; others are skipped. -/
def loadStep (m : List (String × Table)) (e : String × String) :
    List (String × Table) :=
  if strEndsWith (toLowerStr e.1) ".csv" then
    dinsert m (basename e.1) (parseEntry e.1 e.2)
  else m

/-- `load_all_csv_from_zip`: the archive is its ordered entry list
(name, decoded content); the result is the insertion-ordered mapping. -/
def load_all_csv_from_zip (archive : List (String × String)) :
    List (String × Table) :=
  archive.foldl loadStep []

/-- The selection stage's failure: `list(datasets.values())[0]` raises on an
empty mapping (nothing to select). -/
inductive SelError where
  | emptyDataset
deriving DecidableEq, Repr

/-- The selection loop: first entry whose name lacks `Metadata`. -/
def findMain (m : List (String × Table)) : Option (String × Table) :=
  match m with
  | [] => none
  | p :: rest => if isMeta p.1 then findMain rest else some p

/-- The dataset selection stage (lines 38-50 of the source): prefer the first
non-metadata entry, else fall back to the first entry; an empty mapping is the
error case. -/
def selectMain (m : List (String × Table)) :
    Except SelError (String × Table) :=
  match findMain m with
  | some p => Except.ok p
  | none =>
    match m with
    | [] => Except.error SelError.emptyDataset
    | p :: _ => Except.ok p

/-- The `bins` list of the source, edges of the bucket scheme;
`float('inf')` is the top element. -/
def bucketEdges : List (WithTop ℚ) :=
  [((0 : ℚ) : WithTop ℚ), ((1000000 : ℚ) : WithTop ℚ),
   ((5000000 : ℚ) : WithTop ℚ), ((10000000 : ℚ) : WithTop ℚ),
   ((50000000 : ℚ) : WithTop ℚ), ((100000000 : ℚ) : WithTop ℚ),
   ((500000000 : ℚ) : WithTop ℚ), (⊤ : WithTop ℚ)]

/-- The `labels` list of the source. -/
def bucketLabels : List String :=
  ["< 1M", "1M - 5M", "5M - 10M", "10M - 50M", "50M - 100M", "100M - 500M",
   "> 500M"]

/-- Interval search of `pd.cut` past the first interval: with the default
`right=True` each interval is left-open, right-closed `(lo, hi]`. -/
def cutSearch (v : ℚ) : List (WithTop ℚ) → List String → Option String
  | lo :: rest, l :: ls =>
    match rest with
    | hi :: _ =>
      if lo < (v : WithTop ℚ) ∧ (v : WithTop ℚ) ≤ hi then some l
      else cutSearch v rest ls
    | [] => none
  | _, _ => none

/-- `pd.cut(·, bins, labels, include_lowest=True)` on one value:
`include_lowest` closes the first interval on the left; a value in no
interval gets no category (NaN). -/
def pdCut (v : ℚ) (edges : List (WithTop ℚ)) (labels : List String) :
    Option String :=
  match edges, labels with
  | lo :: rest, l :: ls =>
    match rest with
    | hi :: _ =>
      if lo ≤ (v : WithTop ℚ) ∧ (v : WithTop ℚ) ≤ hi then some l
      else cutSearch v rest ls
    | [] => none
  | _, _ => none

/-- The bucket assignment of the source's fixed scheme. -/
def bucket (v : ℚ) : Option String :=
  pdCut v bucketEdges bucketLabels

/-- The Derived Categorical Series: `pd.cut` applied pointwise to the
cleaned numeric series. -/
def derivedSeries (xs : List ℚ) : List (Option String) :=
  xs.map bucket

/-- Membership of a value in the i-th range of the bucket scheme, under the
code's actual interval convention (right-closed; first interval closed below
by `include_lowest`; last unbounded above). -/
def intervalMem (v : ℚ) (i : Fin 7) : Prop :=
  match i.val with
  | 0 => 0 ≤ v ∧ v ≤ 1000000
  | 1 => 1000000 < v ∧ v ≤ 5000000
  | 2 => 5000000 < v ∧ v ≤ 10000000
  | 3 => 10000000 < v ∧ v ≤ 50000000
  | 4 => 50000000 < v ∧ v ≤ 100000000
  | 5 => 100000000 < v ∧ v ≤ 500000000
  | _ => 500000000 < v

/-- `series.mean()`: sum over count. -/
def mean (xs : List ℚ) : ℚ :=
  xs.sum / (xs.length : ℚ)

/-- `series.min()` on a non-empty list (junk value 0 on the empty list,
where pandas prints NaN; no claim constrains that case). -/
def listMin : List ℚ → ℚ
  | [] => 0
  | [x] => x
  | x :: y :: t => min x (listMin (y :: t))

/-- `series.max()`, same convention as `listMin`. -/
def listMax : List ℚ → ℚ
  | [] => 0
  | [x] => x
  | x :: y :: t => max x (listMax (y :: t))

/-- The sorted copy pandas takes the median over. -/
def sortedOf (xs : List ℚ) : List ℚ :=
  List.insertionSort (· ≤ ·) xs

/-- `series.median()`: middle element of the sorted values for odd count,
average of the two middle elements for even count. -/
def median (xs : List ℚ) : ℚ :=
  if xs.length % 2 = 1 then (sortedOf xs).getD (xs.length / 2) 0
  else ((sortedOf xs).getD (xs.length / 2 - 1) 0 +
          (sortedOf xs).getD (xs.length / 2) 0) / 2

/-- The summary statistics printed by `visualize_continuous` (the printed
standard deviation, a square root, is not carried: no claim constrains it). -/
structure Summary where
  count : ℕ
  mean : ℚ
  median : ℚ
  min : ℚ
  max : ℚ
deriving DecidableEq, Repr

/-- The summary block of `visualize_continuous` over the cleaned series. -/
def summarize (xs : List ℚ) : Summary :=
  ⟨xs.length, mean xs, median xs, listMin xs, listMax xs⟩

/-- Observable output of the script's visualization section: each console
warning and each renderer invocation is one event, in program order. -/
inductive Event where
  | warnContNotFound (c : String)
  | warnContNotNumeric (c : String)
  | histogram (c : String) (cleanData : List ℚ)
  | contSummary (c : String) (s : Summary)
  | warnCannotCreate (c : String)
  | fatalTypeError
  | barChart (name : String) (cats : List (Option String))
  | warnCatNotFound (c : String)
deriving DecidableEq, Repr

/-- `visualize_continuous`: drop missing values, render the histogram, print
the summary statistics. -/
def visualize_continuous (series : List Value) (c : String) : List Event :=
  [Event.histogram c (dropnaNum series),
   Event.contSummary c (summarize (dropnaNum series))]

/-- `visualize_categorical` invoked on an already-categorical series: the
bar-chart rendering of that series (its printed frequency summary carries no
data any claim constrains). -/
def visualize_categorical (cats : List (Option String)) (name : String) :
    List Event :=
  [Event.barChart name cats]

/-- A raw column value shown as a category by `visualize_categorical` when it
is called directly on a dataset column. -/
def valToCat (v : Value) : Option String :=
  match v with
  | .num q => some (toString q)
  | .str s => some s
  | .missing => none

/-- The continuous-visualization block (source lines 123-133): the guard
`if continuous_column:` is Python truthiness (`None` and the empty string are
falsy); then warn when the configured column is absent or non-numeric, else
render the histogram. -/
def contStage (contCol : Option String) (df : Table) : List Event :=
  match contCol with
  | none => []
  | some c =>
    if c = "" then []
    else if c ∈ df.header then
      if isNumericCol (colVals df c) then visualize_continuous (colVals df c) c
      else [Event.warnContNotNumeric c]
    else [Event.warnContNotFound c]

/-- The plain categorical block (source lines 157-164), reached only when the
binning block's guard is false. -/
def catStage (catCol : Option String) (df : Table) : List Event :=
  match catCol with
  | none => []
  | some c =>
    if c = "" then []
    else if c ∈ df.header then
      visualize_categorical ((colVals df c).map valToCat) c
    else [Event.warnCatNotFound c]

/-- The binning block (source lines 137-154) with its `elif` fall-through:
when enabled and the binning column is present, bucket its cleaned values and
render the bar chart (a non-numeric column named `2020` makes `pd.cut` raise,
the fatal event; a non-numeric column under another name is the printed
`Cannot create categories` diagnostic); otherwise control falls through to
the plain categorical block. -/
def binStage (createFlag : Bool) (binCol : String) (catCol : Option String)
    (df : Table) : List Event :=
  if createFlag ∧ binCol ∈ df.header then
    if binCol = "2020" ∨ isNumericCol (colVals df binCol) then
      if isNumericCol (colVals df binCol) then
        visualize_categorical (derivedSeries (dropnaNum (colVals df binCol)))
          (binCol ++ " (Population Size Categories)")
      else [Event.fatalTypeError]
    else [Event.warnCannotCreate binCol]
  else catStage catCol df

/-- The whole visualization section in program order: the continuous block,
then the binning block with its categorical fall-through. -/
def runViz (contCol : Option String) (catCol : Option String)
    (createFlag : Bool) (binCol : String) (df : Table) : List Event :=
  contStage contCol df ++ binStage createFlag binCol catCol df

/-! Lemmas about the bucket scheme. -/

lemma pdCut_step (v lo hi : ℚ) (es : List (WithTop ℚ)) (l : String)
    (ls : List String) :
    pdCut v ((lo : WithTop ℚ) :: (hi : WithTop ℚ) :: es) (l :: ls) =
      if lo ≤ v ∧ v ≤ hi then some l
      else cutSearch v ((hi : WithTop ℚ) :: es) ls := by
  simp [pdCut, WithTop.coe_le_coe]

lemma cutSearch_step (v lo hi : ℚ) (es : List (WithTop ℚ)) (l : String)
    (ls : List String) :
    cutSearch v ((lo : WithTop ℚ) :: (hi : WithTop ℚ) :: es) (l :: ls) =
      if lo < v ∧ v ≤ hi then some l
      else cutSearch v ((hi : WithTop ℚ) :: es) ls := by
  simp [cutSearch, WithTop.coe_lt_coe, WithTop.coe_le_coe]

lemma cutSearch_last (v lo : ℚ) (l : String) :
    cutSearch v [(lo : WithTop ℚ), (⊤ : WithTop ℚ)] [l] =
      if lo < v then some l else none := by
  simp [cutSearch, WithTop.coe_lt_coe, le_top]

lemma bucket_r0 (v : ℚ) (h0 : 0 ≤ v) (h1 : v ≤ 1000000) :
    bucket v = some "< 1M" := by
  simp only [bucket, bucketEdges, bucketLabels]
  rw [pdCut_step, if_pos ⟨h0, h1⟩]

lemma bucket_r1 (v : ℚ) (h0 : 1000000 < v) (h1 : v ≤ 5000000) :
    bucket v = some "1M - 5M" := by
  simp only [bucket, bucketEdges, bucketLabels]
  rw [pdCut_step, if_neg (by rintro ⟨-, h⟩; linarith),
    cutSearch_step, if_pos ⟨h0, h1⟩]

lemma bucket_r2 (v : ℚ) (h0 : 5000000 < v) (h1 : v ≤ 10000000) :
    bucket v = some "5M - 10M" := by
  simp only [bucket, bucketEdges, bucketLabels]
  rw [pdCut_step, if_neg (by rintro ⟨-, h⟩; linarith),
    cutSearch_step, if_neg (by rintro ⟨-, h⟩; linarith),
    cutSearch_step, if_pos ⟨h0, h1⟩]

lemma bucket_r3 (v : ℚ) (h0 : 10000000 < v) (h1 : v ≤ 50000000) :
    bucket v = some "10M - 50M" := by
  simp only [bucket, bucketEdges, bucketLabels]
  rw [pdCut_step, if_neg (by rintro ⟨-, h⟩; linarith),
    cutSearch_step, if_neg (by rintro ⟨-, h⟩; linarith),
    cutSearch_step, if_neg (by rintro ⟨-, h⟩; linarith),
    cutSearch_step, if_pos ⟨h0, h1⟩]

lemma bucket_r4 (v : ℚ) (h0 : 50000000 < v) (h1 : v ≤ 100000000) :
    bucket v = some "50M - 100M" := by
  simp only [bucket, bucketEdges, bucketLabels]
  rw [pdCut_step, if_neg (by rintro ⟨-, h⟩; linarith),
    cutSearch_step, if_neg (by rintro ⟨-, h⟩; linarith),
    cutSearch_step, if_neg (by rintro ⟨-, h⟩; linarith),
    cutSearch_step, if_neg (by rintro ⟨-, h⟩; linarith),
    cutSearch_step, if_pos ⟨h0, h1⟩]

lemma bucket_r5 (v : ℚ) (h0 : 100000000 < v) (h1 : v ≤ 500000000) :
    bucket v = some "100M - 500M" := by
  simp only [bucket, bucketEdges, bucketLabels]
  rw [pdCut_step, if_neg (by rintro ⟨-, h⟩; linarith),
    cutSearch_step, if_neg (by rintro ⟨-, h⟩; linarith),
    cutSearch_step, if_neg (by rintro ⟨-, h⟩; linarith),
    cutSearch_step, if_neg (by rintro ⟨-, h⟩; linarith),
    cutSearch_step, if_neg (by rintro ⟨-, h⟩; linarith),
    cutSearch_step, if_pos ⟨h0, h1⟩]

lemma bucket_r6 (v : ℚ) (h0 : 500000000 < v) :
    bucket v = some "> 500M" := by
  simp only [bucket, bucketEdges, bucketLabels]
  rw [pdCut_step, if_neg (by rintro ⟨-, h⟩; linarith),
    cutSearch_step, if_neg (by rintro ⟨-, h⟩; linarith),
    cutSearch_step, if_neg (by rintro ⟨-, h⟩; linarith),
    cutSearch_step, if_neg (by rintro ⟨-, h⟩; linarith),
    cutSearch_step, if_neg (by rintro ⟨-, h⟩; linarith),
    cutSearch_step, if_neg (by rintro ⟨-, h⟩; linarith),
    cutSearch_last, if_pos h0]

lemma bucket_of_mem (v : ℚ) (i : Fin 7) (h : intervalMem v i) :
    bucket v = bucketLabels[(i : ℕ)]? := by
  fin_cases i <;> simp only [intervalMem] at h
  · exact bucket_r0 v h.1 h.2
  · exact bucket_r1 v h.1 h.2
  · exact bucket_r2 v h.1 h.2
  · exact bucket_r3 v h.1 h.2
  · exact bucket_r4 v h.1 h.2
  · exact bucket_r5 v h.1 h.2
  · exact bucket_r6 v h

lemma labels_get_inj (i j : Fin 7)
    (h : bucketLabels[(i : ℕ)]? = bucketLabels[(j : ℕ)]?) : i = j := by
  revert h
  revert i j
  decide

lemma intervalMem_exists (v : ℚ) (hv : 0 ≤ v) : ∃ i : Fin 7, intervalMem v i := by
  rcases le_or_lt v 1000000 with h1 | h1
  · exact ⟨0, hv, h1⟩
  rcases le_or_lt v 5000000 with h2 | h2
  · exact ⟨1, h1, h2⟩
  rcases le_or_lt v 10000000 with h3 | h3
  · exact ⟨2, h2, h3⟩
  rcases le_or_lt v 50000000 with h4 | h4
  · exact ⟨3, h3, h4⟩
  rcases le_or_lt v 100000000 with h5 | h5
  · exact ⟨4, h4, h5⟩
  rcases le_or_lt v 500000000 with h6 | h6
  · exact ⟨5, h5, h6⟩
  · exact ⟨6, h6⟩

/-- Claim C4: the seven ranges of the fixed bucket scheme partition `[0, ∞)`:
every non-negative value lies in exactly one range, and `pd.cut` assigns it
that range's label. -/
theorem claim_C4_bucket_partition (v : ℚ) (hv : 0 ≤ v) :
    (∃! i : Fin 7, intervalMem v i) ∧
    (∀ i : Fin 7, intervalMem v i → bucket v = bucketLabels[(i : ℕ)]?) := by
  obtain ⟨i, hi⟩ := intervalMem_exists v hv
  refine ⟨⟨i, hi, fun j hj => labels_get_inj j i ?_⟩,
    fun j hj => bucket_of_mem v j hj⟩
  rw [← bucket_of_mem v j hj, ← bucket_of_mem v i hi]

/-- Witness for claim C4 at the concrete value 3. -/
theorem claim_C4_witness :
    (0 : ℚ) ≤ 3 ∧
      ((∃! i : Fin 7, intervalMem 3 i) ∧
        (∀ i : Fin 7, intervalMem 3 i → bucket 3 = bucketLabels[(i : ℕ)]?)) :=
  ⟨by norm_num, claim_C4_bucket_partition 3 (by norm_num)⟩

/-- Claim C1 counterexample: with the source's `pd.cut` call (default
`right=True`, so intervals are right-closed) the boundary value 1,000,000
is assigned the label `< 1M`, not `1M - 5M` as the right-open convention of
the claim demands. -/
theorem claim_C1_counterexample :
    bucket 1000000 = some "< 1M" ∧ bucket 1000000 ≠ some "1M - 5M" := by
  decide

/-- Claim C1 (amended): boundary values map per the right-closed convention
of the code: 1,000,000 is assigned `< 1M` (the first interval is
`[0, 1000000]` under `include_lowest=True`), and 0 is assigned `< 1M`. -/
theorem claim_C1_boundary :
    bucket 0 = some "< 1M" ∧ bucket 1000000 = some "< 1M" := by
  decide

/-! Lemmas about the dataset selector. -/

lemma findMain_all_meta (m : List (String × Table))
    (h : ∀ q ∈ m, isMeta q.1 = true) : findMain m = none := by
  induction m with
  | nil => rfl
  | cons p rest ih =>
    simp only [findMain]
    rw [if_pos (h p (List.mem_cons_self p rest))]
    exact ih (fun q hq => h q (List.mem_cons_of_mem p hq))

lemma findMain_first (pre : List (String × Table)) (p : String × Table)
    (post : List (String × Table)) (hpre : ∀ q ∈ pre, isMeta q.1 = true)
    (hp : isMeta p.1 = false) :
    findMain (pre ++ p :: post) = some p := by
  induction pre with
  | nil =>
    simp only [List.nil_append, findMain]
    rw [if_neg (by simp [hp])]
  | cons q rest ih =>
    simp only [List.cons_append, findMain]
    rw [if_pos (hpre q (List.mem_cons_self q rest))]
    exact ih (fun r hr => hpre r (List.mem_cons_of_mem q hr))

/-- Claim C2: on an empty loader mapping the selection stage fails with the
empty-dataset error (the source's fallback indexing raises there); it does
not produce a dataset. -/
theorem claim_C2_empty_mapping :
    selectMain [] = Except.error SelError.emptyDataset := rfl

/-- Claim C5: on a non-empty mapping the selector returns the first entry in
mapping order whose name lacks the substring `Metadata`; if every name
contains it, it returns the first entry of the mapping, raising no error. -/
theorem claim_C5_selector (m : List (String × Table)) (hne : m ≠ []) :
    (∀ pre p post, m = pre ++ p :: post →
        (∀ q ∈ pre, isMeta q.1 = true) → isMeta p.1 = false →
        selectMain m = Except.ok p) ∧
    ((∀ q ∈ m, isMeta q.1 = true) →
      ∃ p post, m = p :: post ∧ selectMain m = Except.ok p) := by
  constructor
  · rintro pre p post rfl hpre hp
    simp only [selectMain, findMain_first pre p post hpre hp]
  · intro hall
    cases m with
    | nil => exact absurd rfl hne
    | cons p post =>
      refine ⟨p, post, rfl, ?_⟩
      simp only [selectMain, findMain_all_meta _ hall]

/-- Witness for claim C5: a two-entry mapping whose first entry is
metadata-named selects the second entry. -/
theorem claim_C5_witness :
    ([("Metadata_Country.csv", Table.mk [] []),
        ("API_data.csv", Table.mk [] [])] : List (String × Table)) ≠ [] ∧
    selectMain [("Metadata_Country.csv", Table.mk [] []),
        ("API_data.csv", Table.mk [] [])] =
      Except.ok ("API_data.csv", Table.mk [] []) :=
  ⟨by decide,
    (claim_C5_selector _ (by decide)).1
      [("Metadata_Country.csv", Table.mk [] [])]
      ("API_data.csv", Table.mk [] []) [] rfl (by decide) (by decide)⟩

/-! Lemmas about the archive loader. -/

lemma dlookup_append (m1 m2 : List (String × Table)) (k : String) :
    dlookup (m1 ++ m2) k =
      match dlookup m1 k with
      | some v => some v
      | none => dlookup m2 k := by
  induction m1 with
  | nil => simp [dlookup]
  | cons p rest ih =>
    simp only [List.cons_append, dlookup]
    by_cases hp : p.1 = k
    · simp [hp]
    · simp [hp, ih]

lemma dlookup_map_keep (m : List (String × Table)) (k k2 : String) (v : Table)
    (hk : k ≠ k2) :
    dlookup (m.map (fun p => if p.1 = k2 then (k2, v) else p)) k =
      dlookup m k := by
  induction m with
  | nil => rfl
  | cons p rest ih =>
    simp only [List.map_cons, dlookup]
    by_cases hp : p.1 = k2
    · rw [if_pos hp]
      simp only [dlookup]
      rw [if_neg (fun h => hk h.symm), if_neg (fun h => hk (hp ▸ h).symm)]
      · exact ih
    · rw [if_neg hp]
      simp only [dlookup, ih]

lemma dlookup_dinsert_self (m : List (String × Table)) (k : String)
    (v : Table) : dlookup (dinsert m k v) k = some v := by
  unfold dinsert
  split
  · rename_i hany
    rw [List.any_eq_true] at hany
    obtain ⟨p, hp, hpk⟩ := hany
    induction m with
    | nil => cases hp
    | cons q rest ih =>
      simp only [List.map_cons, dlookup]
      by_cases hq : q.1 = k
      · rw [if_pos hq]
        simp [dlookup]
      · rw [if_neg hq]
        simp only [dlookup, if_neg hq]
        rcases List.mem_cons.mp hp with rfl | hrest
        · exact absurd (of_decide_eq_true hpk) hq
        · exact ih hrest
  · rw [dlookup_append]
    have hnone : dlookup m k = none := by
      rename_i hany
      rw [Bool.not_eq_true, List.any_eq_false] at hany
      induction m with
      | nil => rfl
      | cons q rest ih =>
        simp only [dlookup]
        rw [if_neg (fun h => by simpa [h] using hany q (List.mem_cons_self q rest))]
        exact ih (fun p hp => hany p (List.mem_cons_of_mem q hp))
    rw [hnone]
    simp [dlookup]

lemma dlookup_dinsert_isSome (m : List (String × Table)) (k k2 : String)
    (v : Table) (h : (dlookup m k).isSome = true) :
    (dlookup (dinsert m k2 v) k).isSome = true := by
  by_cases hk : k = k2
  · subst hk
    rw [dlookup_dinsert_self]
    rfl
  · unfold dinsert
    split
    · rw [dlookup_map_keep m k k2 v hk]
      exact h
    · rw [dlookup_append]
      cases hl : dlookup m k with
      | none => rw [hl] at h; cases h
      | some w => simp

lemma loadStep_preserves (m : List (String × Table)) (e : String × String)
    (k : String) (h : (dlookup m k).isSome = true) :
    (dlookup (loadStep m e) k).isSome = true := by
  unfold loadStep
  split
  · exact dlookup_dinsert_isSome m k (basename e.1) (parseEntry e.1 e.2) h
  · exact h

lemma foldl_loadStep_preserves (archive : List (String × String))
    (m : List (String × Table)) (k : String)
    (h : (dlookup m k).isSome = true) :
    (dlookup (archive.foldl loadStep m) k).isSome = true := by
  induction archive generalizing m with
  | nil => exact h
  | cons e rest ih => exact ih _ (loadStep_preserves m e k h)

lemma load_covers_aux (archive : List (String × String)) :
    ∀ (m : List (String × Table)) (n c : String), (n, c) ∈ archive →
      strEndsWith (toLowerStr n) ".csv" = true →
      (dlookup (archive.foldl loadStep m) (basename n)).isSome = true := by
  induction archive with
  | nil => intro m n c hmem _; cases hmem
  | cons e rest ih =>
    intro m n c hmem hcsv
    rcases List.mem_cons.mp hmem with he | hrest
    · subst he
      simp only [List.foldl_cons]
      apply foldl_loadStep_preserves
      unfold loadStep
      rw [if_pos hcsv, dlookup_dinsert_self]
      rfl
    · exact ih _ n c hrest hcsv

lemma stripBOM_strips (c : String) : stripBOM ("\uFEFF" ++ c) = c := by
  cases c with
  | mk data => rfl

/-- Claim C9: the loader keys a table for every entry whose name ends in
`.csv` case-insensitively; an entry whose name contains `Metadata`
(case-sensitive) is parsed with its first row as header and no rows skipped,
any other entry has exactly 4 leading rows skipped with the next row as
header; and a leading byte-order mark of the decoded content is stripped. -/
theorem claim_C9_loader :
    (∀ (archive : List (String × String)) (n c : String), (n, c) ∈ archive →
        strEndsWith (toLowerStr n) ".csv" = true →
        (dlookup (load_all_csv_from_zip archive) (basename n)).isSome = true) ∧
    (∀ n c, isMeta n = true →
        parseEntry n c = ⟨(csvRows c).headD [], (csvRows c).tail⟩) ∧
    (∀ n c, isMeta n = false →
        parseEntry n c =
          ⟨((csvRows c).drop 4).headD [], ((csvRows c).drop 4).tail⟩) ∧
    (∀ c, stripBOM ("\uFEFF" ++ c) = c) := by
  refine ⟨fun archive n c hmem hcsv => load_covers_aux archive [] n c hmem hcsv,
    fun n c h => ?_, fun n c h => ?_, stripBOM_strips⟩
  · simp [parseEntry, h]
  · simp [parseEntry, h]

/-- Witness for claim C9: a one-entry archive under a directory prefix, one
metadata-named entry, one data entry, and a BOM-prefixed content string. -/
theorem claim_C9_witness :
    ("dir/API_pop.csv", "x,y\n1,2") ∈
        [(("dir/API_pop.csv" : String), ("x,y\n1,2" : String))] ∧
    strEndsWith (toLowerStr "dir/API_pop.csv") ".csv" = true ∧
    (dlookup (load_all_csv_from_zip [("dir/API_pop.csv", "x,y\n1,2")])
        (basename "dir/API_pop.csv")).isSome = true ∧
    isMeta "Metadata_Country.csv" = true ∧
    parseEntry "Metadata_Country.csv" "h,k\na,b" =
      ⟨(csvRows "h,k\na,b").headD [], (csvRows "h,k\na,b").tail⟩ ∧
    isMeta "API_pop.csv" = false ∧
    parseEntry "API_pop.csv" "r1\nr2\nr3\nr4\nh,k\na,b" =
      ⟨((csvRows "r1\nr2\nr3\nr4\nh,k\na,b").drop 4).headD [],
        ((csvRows "r1\nr2\nr3\nr4\nh,k\na,b").drop 4).tail⟩ ∧
    stripBOM ("\uFEFF" ++ "abc") = "abc" :=
  ⟨by decide, by decide,
    claim_C9_loader.1 [("dir/API_pop.csv", "x,y\n1,2")] "dir/API_pop.csv"
      "x,y\n1,2" (by decide) (by decide),
    by decide, claim_C9_loader.2.1 "Metadata_Country.csv" "h,k\na,b" (by decide),
    by decide,
    claim_C9_loader.2.2.1 "API_pop.csv" "r1\nr2\nr3\nr4\nh,k\na,b" (by decide),
    claim_C9_loader.2.2.2 "abc"⟩

/-- Claim C10: two CSV entries sharing a base filename in different
directories collapse to a single mapping key; the later entry's table
silently overwrites the earlier one, so the mapping has fewer keys than the
archive has CSV entries. -/
theorem claim_C10_basename_overwrite (n1 n2 c1 c2 : String)
    (h1 : strEndsWith (toLowerStr n1) ".csv" = true)
    (h2 : strEndsWith (toLowerStr n2) ".csv" = true)
    (hb : basename n1 = basename n2) :
    load_all_csv_from_zip [(n1, c1), (n2, c2)] =
      [(basename n1, parseEntry n2 c2)] ∧
    (load_all_csv_from_zip [(n1, c1), (n2, c2)]).length < 2 := by
  have hload : load_all_csv_from_zip [(n1, c1), (n2, c2)] =
      [(basename n1, parseEntry n2 c2)] := by
    unfold load_all_csv_from_zip
    simp only [List.foldl_cons, List.foldl_nil]
    unfold loadStep
    rw [if_pos h1, if_pos h2]
    rw [show dinsert [] (basename n1) (parseEntry n1 c1) =
        [(basename n1, parseEntry n1 c1)] by simp [dinsert]]
    rw [← hb]
    simp [dinsert]
  exact ⟨hload, by rw [hload]; simp⟩

/-- Witness for claim C10: `a/data.csv` then `b/data.csv` leave a single
entry keyed `data.csv` holding the parse of the second entry. -/
theorem claim_C10_witness :
    strEndsWith (toLowerStr "a/data.csv") ".csv" = true ∧
    strEndsWith (toLowerStr "b/data.csv") ".csv" = true ∧
    basename "a/data.csv" = basename "b/data.csv" ∧
    (load_all_csv_from_zip [("a/data.csv", "x"), ("b/data.csv", "y")] =
        [(basename "a/data.csv", parseEntry "b/data.csv" "y")] ∧
      (load_all_csv_from_zip [("a/data.csv", "x"), ("b/data.csv", "y")]).length
        < 2) :=
  ⟨by decide, by decide, by decide,
    claim_C10_basename_overwrite "a/data.csv" "b/data.csv" "x" "y"
      (by decide) (by decide) (by decide)⟩

/-! Lemmas about the summary statistics of the continuous renderer. -/

lemma listMin_le (xs : List ℚ) (x : ℚ) (hx : x ∈ xs) : listMin xs ≤ x := by
  induction xs with
  | nil => cases hx
  | cons a t ih =>
    cases t with
    | nil =>
      rcases List.mem_cons.mp hx with rfl | h
      · simp [listMin]
      · cases h
    | cons b t2 =>
      rcases List.mem_cons.mp hx with rfl | h
      · exact min_le_left _ _
      · exact le_trans (min_le_right _ _) (ih h)

lemma le_listMax (xs : List ℚ) (x : ℚ) (hx : x ∈ xs) : x ≤ listMax xs := by
  induction xs with
  | nil => cases hx
  | cons a t ih =>
    cases t with
    | nil =>
      rcases List.mem_cons.mp hx with rfl | h
      · simp [listMax]
      · cases h
    | cons b t2 =>
      rcases List.mem_cons.mp hx with rfl | h
      · exact le_max_left _ _
      · exact le_trans (ih h) (le_max_right _ _)

lemma length_mul_listMin_le_sum (xs : List ℚ) (h : xs ≠ []) :
    (xs.length : ℚ) * listMin xs ≤ xs.sum := by
  induction xs with
  | nil => exact absurd rfl h
  | cons a t ih =>
    cases t with
    | nil => simp [listMin]
    | cons b t2 =>
      have iht := ih (by simp)
      simp only [listMin, List.length_cons, List.sum_cons]
      push_cast
      have h1 : min a (listMin (b :: t2)) ≤ a := min_le_left _ _
      have h2 : ((b :: t2).length : ℚ) * min a (listMin (b :: t2)) ≤
          ((b :: t2).length : ℚ) * listMin (b :: t2) :=
        mul_le_mul_of_nonneg_left (min_le_right _ _) (by positivity)
      have h3 : ((b :: t2).length : ℚ) * listMin (b :: t2) ≤
          b + t2.sum := by
        simpa using iht
      have expand : (((b :: t2).length : ℚ) + 1) * min a (listMin (b :: t2)) =
          ((b :: t2).length : ℚ) * min a (listMin (b :: t2)) +
            min a (listMin (b :: t2)) := by ring
      simp only [List.length_cons] at h2 h3 ⊢
      push_cast at h2 h3 expand ⊢
      linarith

lemma sum_le_length_mul_listMax (xs : List ℚ) (h : xs ≠ []) :
    xs.sum ≤ (xs.length : ℚ) * listMax xs := by
  induction xs with
  | nil => exact absurd rfl h
  | cons a t ih =>
    cases t with
    | nil => simp [listMax]
    | cons b t2 =>
      have iht := ih (by simp)
      simp only [listMax, List.length_cons, List.sum_cons]
      push_cast
      have h1 : a ≤ max a (listMax (b :: t2)) := le_max_left _ _
      have h2 : ((b :: t2).length : ℚ) * listMax (b :: t2) ≤
          ((b :: t2).length : ℚ) * max a (listMax (b :: t2)) :=
        mul_le_mul_of_nonneg_left (le_max_right _ _) (by positivity)
      have h3 : b + t2.sum ≤
          ((b :: t2).length : ℚ) * listMax (b :: t2) := by
        simpa using iht
      have expand : (((b :: t2).length : ℚ) + 1) * max a (listMax (b :: t2)) =
          ((b :: t2).length : ℚ) * max a (listMax (b :: t2)) +
            max a (listMax (b :: t2)) := by ring
      simp only [List.length_cons] at h2 h3 ⊢
      push_cast at h2 h3 expand ⊢
      linarith

lemma listMin_le_mean (xs : List ℚ) (h : xs ≠ []) : listMin xs ≤ mean xs := by
  have hlen : 0 < (xs.length : ℚ) := by
    exact_mod_cast List.length_pos.mpr h
  rw [mean, le_div_iff₀ hlen]
  calc listMin xs * (xs.length : ℚ) = (xs.length : ℚ) * listMin xs := by ring
    _ ≤ xs.sum := length_mul_listMin_le_sum xs h

lemma mean_le_listMax (xs : List ℚ) (h : xs ≠ []) : mean xs ≤ listMax xs := by
  have hlen : 0 < (xs.length : ℚ) := by
    exact_mod_cast List.length_pos.mpr h
  rw [mean, div_le_iff₀ hlen]
  calc xs.sum ≤ (xs.length : ℚ) * listMax xs := sum_le_length_mul_listMax xs h
    _ = listMax xs * (xs.length : ℚ) := by ring

lemma sortedOf_getD_mem (xs : List ℚ) (i : ℕ) (hi : i < xs.length) :
    (sortedOf xs).getD i 0 ∈ xs := by
  have hlen : (sortedOf xs).length = xs.length :=
    (List.perm_insertionSort (· ≤ ·) xs).length_eq
  have hi' : i < (sortedOf xs).length := by rw [hlen]; exact hi
  rw [List.getD_eq_getElem _ _ hi']
  exact (List.perm_insertionSort (· ≤ ·) xs).mem_iff.mp (List.getElem_mem hi')

lemma median_bounds (xs : List ℚ) (h : xs ≠ []) :
    listMin xs ≤ median xs ∧ median xs ≤ listMax xs := by
  have hpos : 0 < xs.length := List.length_pos.mpr h
  unfold median
  split
  · have hi : xs.length / 2 < xs.length := Nat.div_lt_self hpos (by norm_num)
    have hmem := sortedOf_getD_mem xs _ hi
    exact ⟨listMin_le xs _ hmem, le_listMax xs _ hmem⟩
  · have hi2 : xs.length / 2 < xs.length := Nat.div_lt_self hpos (by norm_num)
    have hi1 : xs.length / 2 - 1 < xs.length :=
      lt_of_le_of_lt (Nat.sub_le _ _) hi2
    have hm1 := sortedOf_getD_mem xs _ hi1
    have hm2 := sortedOf_getD_mem xs _ hi2
    constructor
    · have a1 := listMin_le xs _ hm1
      have a2 := listMin_le xs _ hm2
      linarith
    · have b1 := le_listMax xs _ hm1
      have b2 := le_listMax xs _ hm2
      linarith

lemma dropnaNum_length (vs : List Value) (h : isNumericCol vs = true) :
    (dropnaNum vs).length = (vs.filter (fun v => !v.isMissing)).length := by
  induction vs with
  | nil => rfl
  | cons v t ih =>
    have hv : (!v.isStr) = true ∧ isNumericCol t = true := by
      simpa [isNumericCol] using h
    cases v with
    | num q =>
      rw [show dropnaNum (Value.num q :: t) = q :: dropnaNum t from rfl,
        show (Value.num q :: t).filter (fun v => !v.isMissing) =
          Value.num q :: t.filter (fun v => !v.isMissing) from rfl]
      simp [ih hv.2]
    | str s => simp [Value.isStr] at hv
    | missing =>
      rw [show dropnaNum (Value.missing :: t) = dropnaNum t from rfl,
        show (Value.missing :: t).filter (fun v => !v.isMissing) =
          t.filter (fun v => !v.isMissing) from rfl]
      exact ih hv.2

/-- Claim C6: on a numeric input series, the continuous renderer's reported
count is the number of non-missing input values, and with a positive count
the reported statistics satisfy `min ≤ median ≤ max` and `min ≤ mean ≤ max`. -/
theorem claim_C6_continuous_stats (vs : List Value)
    (hnum : isNumericCol vs = true) :
    (summarize (dropnaNum vs)).count =
      (vs.filter (fun v => !v.isMissing)).length ∧
    (0 < (summarize (dropnaNum vs)).count →
      (summarize (dropnaNum vs)).min ≤ (summarize (dropnaNum vs)).median ∧
      (summarize (dropnaNum vs)).median ≤ (summarize (dropnaNum vs)).max ∧
      (summarize (dropnaNum vs)).min ≤ (summarize (dropnaNum vs)).mean ∧
      (summarize (dropnaNum vs)).mean ≤ (summarize (dropnaNum vs)).max) := by
  refine ⟨dropnaNum_length vs hnum, fun hpos => ?_⟩
  have hne : dropnaNum vs ≠ [] := by
    intro h0
    rw [show (summarize (dropnaNum vs)).count = (dropnaNum vs).length from rfl,
      h0] at hpos
    exact absurd hpos (lt_irrefl 0)
  obtain ⟨hmed1, hmed2⟩ := median_bounds (dropnaNum vs) hne
  exact ⟨hmed1, hmed2, listMin_le_mean _ hne, mean_le_listMax _ hne⟩

/-- Witness for claim C6 on the series `[1, missing, 3]`. -/
theorem claim_C6_witness :
    isNumericCol [Value.num 1, Value.missing, Value.num 3] = true ∧
    ((summarize (dropnaNum [Value.num 1, Value.missing, Value.num 3])).count =
        ([Value.num 1, Value.missing, Value.num 3].filter
          (fun v => !v.isMissing)).length ∧
      (0 < (summarize
            (dropnaNum [Value.num 1, Value.missing, Value.num 3])).count →
        (summarize (dropnaNum [Value.num 1, Value.missing,
            Value.num 3])).min ≤
          (summarize (dropnaNum [Value.num 1, Value.missing,
            Value.num 3])).median ∧
        (summarize (dropnaNum [Value.num 1, Value.missing,
            Value.num 3])).median ≤
          (summarize (dropnaNum [Value.num 1, Value.missing,
            Value.num 3])).max ∧
        (summarize (dropnaNum [Value.num 1, Value.missing,
            Value.num 3])).min ≤
          (summarize (dropnaNum [Value.num 1, Value.missing,
            Value.num 3])).mean ∧
        (summarize (dropnaNum [Value.num 1, Value.missing,
            Value.num 3])).mean ≤
          (summarize (dropnaNum [Value.num 1, Value.missing,
            Value.num 3])).max)) :=
  ⟨by decide, claim_C6_continuous_stats _ (by decide)⟩

/-! Claims about the visualization control flow. -/

/-- A dataset lacking the binning column `2020`. -/
def dfNoYear : Table := ⟨["Country Name"], [["A"]]⟩

/-- A dataset holding the binning column `2020`. -/
def dfYear : Table := ⟨["Country Name", "2020"], [["A", "2000000"]]⟩

/-- Claim C3 counterexample: with the binning column absent, the binning
block of the source emits no event at all — in particular no diagnostic
message — because its guard `CREATE_CATEGORICAL_FROM_CONTINUOUS and
CONTINUOUS_COLUMN_FOR_BINNING in df.columns` is false and control silently
falls to the (empty) `elif` branch. -/
theorem claim_C3_counterexample :
    ¬ ("2020" ∈ dfNoYear.header) ∧ binStage true "2020" none dfNoYear = [] :=
  ⟨by decide, rfl⟩

/-- Claim C3 (amended): if the column configured for the binning path is
absent from the selected dataset, the binning stage produces no chart and
does not abort the run (control falls through to the categorical branch,
empty under the source's configuration), but it emits no diagnostic
message either: its event list is empty, and the whole run's output is
exactly the continuous block's output. -/
theorem claim_C3_silent_skip (df : Table) (h : ¬ ("2020" ∈ df.header)) :
    binStage true "2020" none df = [] ∧
    (∀ cc, runViz cc none true "2020" df = contStage cc df) := by
  have hb : binStage true "2020" none df = [] := by
    unfold binStage
    rw [if_neg (by rintro ⟨-, hmem⟩; exact h hmem)]
    rfl
  refine ⟨hb, fun cc => ?_⟩
  unfold runViz
  rw [hb, List.append_nil]

/-- Witness for the amended claim C3 on a concrete one-column dataset. -/
theorem claim_C3_witness :
    ¬ ("2020" ∈ dfNoYear.header) ∧
    (binStage true "2020" none dfNoYear = [] ∧
      (∀ cc, runViz cc none true "2020" dfNoYear = contStage cc dfNoYear)) :=
  ⟨by decide, claim_C3_silent_skip dfNoYear (by decide)⟩

/-- Claim C8: when the configured continuous column is missing, the
continuous block prints exactly the not-found warning and renders no
histogram, and the binning block still renders its bar chart off its own
(present, numeric) target column: the run's output is exactly the warning
followed by the bar chart. -/
theorem claim_C8_paths_independent (df : Table) (cc : String) (hcc : cc ≠ "")
    (habs : ¬ (cc ∈ df.header)) (hpres : "2020" ∈ df.header)
    (hnum : isNumericCol (colVals df "2020") = true) :
    runViz (some cc) none true "2020" df =
      [Event.warnContNotFound cc,
       Event.barChart ("2020" ++ " (Population Size Categories)")
         (derivedSeries (dropnaNum (colVals df "2020")))] := by
  unfold runViz
  have hc : contStage (some cc) df = [Event.warnContNotFound cc] := by
    simp [contStage, hcc, habs]
  have hbin : binStage true "2020" none df =
      [Event.barChart ("2020" ++ " (Population Size Categories)")
        (derivedSeries (dropnaNum (colVals df "2020")))] := by
    simp [binStage, hpres, hnum, visualize_categorical]
  rw [hc, hbin]
  rfl

/-- Witness for claim C8: configuring the absent continuous column `1960`
on a dataset carrying a numeric `2020` column. -/
theorem claim_C8_witness :
    ("1960" : String) ≠ "" ∧
    ¬ (("1960" : String) ∈ dfYear.header) ∧
    ("2020" : String) ∈ dfYear.header ∧
    isNumericCol (colVals dfYear "2020") = true ∧
    runViz (some "1960") none true "2020" dfYear =
      [Event.warnContNotFound "1960",
       Event.barChart ("2020" ++ " (Population Size Categories)")
         (derivedSeries (dropnaNum (colVals dfYear "2020")))] :=
  ⟨by decide, by decide, by decide, by decide,
    claim_C8_paths_independent dfYear "1960" (by decide) (by decide)
      (by decide) (by decide)⟩

/-! The end-to-end scenario. -/

/-- The scenario archive entry content: 4 boilerplate rows, the header row,
and two data rows. -/
def content7 : String :=
  "j1\nj2\nj3\nj4\nCountry Name,Country Code,2019,2020\nA,AAA,100,2000000\nB,BBB,200,6000000"

/-- The table the loader produces for the scenario entry. -/
def table7 : Table :=
  ⟨["Country Name", "Country Code", "2019", "2020"],
   [["A", "AAA", "100", "2000000"], ["B", "BBB", "200", "6000000"]]⟩

/-- Claim C7: on the scenario archive, selection yields the single data
table, and running the visualization with `continuous_column="2020"` and
binning enabled renders the histogram over the two values, prints the
summary count=2, mean=4000000, min=2000000, max=6000000, and renders the
bar chart of the Derived Categorical Series `[1M - 5M, 5M - 10M]`. -/
theorem claim_C7_end_to_end :
    selectMain (load_all_csv_from_zip [("API_pop.csv", content7)]) =
      Except.ok ("API_pop.csv", table7) ∧
    runViz (some "2020") none true "2020" table7 =
      [Event.histogram "2020" [2000000, 6000000],
       Event.contSummary "2020" ⟨2, 4000000, 4000000, 2000000, 6000000⟩,
       Event.barChart ("2020" ++ " (Population Size Categories)")
         [some "1M - 5M", some "5M - 10M"]] := by
  refine ⟨rfl, ?_⟩
  have hsort : sortedOf [(2000000 : ℚ), 6000000] = [2000000, 6000000] := by
    decide
  have hmean : mean [(2000000 : ℚ), 6000000] = 4000000 := by
    norm_num [mean]
  have hmed : median [(2000000 : ℚ), 6000000] = 4000000 := by
    simp only [median, hsort]
    norm_num [List.getD]
  have hmin : listMin [(2000000 : ℚ), 6000000] = 2000000 := by
    norm_num [listMin, min_def]
  have hmax : listMax [(2000000 : ℚ), 6000000] = 6000000 := by
    norm_num [listMax, max_def]
  have hsum : summarize [(2000000 : ℚ), 6000000] =
      ⟨2, 4000000, 4000000, 2000000, 6000000⟩ := by
    simp only [summarize, Summary.mk.injEq]
    exact ⟨by decide, hmean, hmed, hmin, hmax⟩
  have e1 : runViz (some "2020") none true "2020" table7 =
      [Event.histogram "2020" [2000000, 6000000],
       Event.contSummary "2020" (summarize [(2000000 : ℚ), 6000000]),
       Event.barChart ("2020" ++ " (Population Size Categories)")
         [some "1M - 5M", some "5M - 10M"]] := rfl
  rw [e1, hsum]

end SCT
